import Mathlib

/-!
Verification of the job-orchestration engine of `automatic-beer-goggles`.

The Python sources are embedded shallowly:
* filesystem paths are modelled as lists of path segments (`FPath`); the
  configured base output directory contributes a single segment;
* the filesystem itself is the list of regular files that exist (`FS`);
* the two external collaborators (`AudioMasterer.master_audio_file` and
  `VideoGenerator.create_video`, which shell out to external tools) are
  modelled as an oracle `StageOracle` giving each invocation's outcome;
* Python dicts are modelled as association lists with insert-or-overwrite
  update, Python exceptions as `Except`.
-/

namespace ABG

/-- A filesystem path, as its list of segments (pathlib `Path.parts`). -/
abbrev FPath := List String

/-- Rendering of a path as a string (`str(path)`). -/
def pathStr (p : FPath) : String := String.intercalate "/" p

/-- The set of regular files that exist on disk. -/
abbrev FS := List FPath

/-- `Path.stem`: the final path component without its last suffix.
Mirrors CPython's `PurePath.stem`/`suffix`: the suffix is `name[i:]` for
`i = name.rfind(".")` only when `0 < i < len(name) - 1`. -/
def stemOfName (name : String) : String :=
  let cs := name.toList
  let n := cs.length
  let suffLen := (cs.reverse.takeWhile (fun c => c ≠ '.')).length
  if suffLen = n then name
  else
    let i := n - suffLen - 1
    if 0 < i ∧ i < n - 1 then String.mk (cs.take i) else name

/-- `Path.stem` of a segment-list path (stem of its final component). -/
def FPath.stem (p : FPath) : String := stemOfName (p.getLast?.getD "")

/-- Python-dict update: overwrite in place if the key exists, else append
(CPython dicts keep the original position of an overwritten key). -/
def dictInsert {α : Type} (d : List (String × α)) (k : String) (v : α) :
    List (String × α) :=
  if d.any (fun kv => kv.1 = k) then
    d.map (fun kv => if kv.1 = k then (k, v) else kv)
  else d ++ [(k, v)]

/-- Keys of an association list. -/
def dictKeys {α : Type} (d : List (String × α)) : List String := d.map Prod.fst

/-- `str.lower()`, character by character (every call site lower-cases
ASCII identifiers; defined via `Char.toLower` so that it reduces in the
kernel, unlike `String.toLower`, which recurses on byte positions). -/
def strToLower (s : String) : String := String.mk (s.toList.map Char.toLower)

/-- `str.replace(a, b)` for a single-character pattern and replacement
(the only form the source uses). -/
def replaceChar (s : String) (a b : Char) : String :=
  String.mk (s.toList.map fun c => if c = a then b else c)

/-- Python `repr` of a list of plain strings, as interpolated by an f-string
(`f"... : \x7bfailed_videos\x7d"`). -/
def pyListRepr (xs : List String) : String :=
  "[" ++ String.intercalate ", " (xs.map fun s => "\x27" ++ s ++ "\x27") ++ "]"

/-! ### `config/platforms.py` -/

/-- `AspectRatio` enum (`TWITTER_LANDSCAPE` is an alias of `LANDSCAPE` in the
source, hence not a separate member). -/
inductive AspectRatio
  | square
  | landscape
  | portrait
deriving DecidableEq, Repr

/-- The enum member's string value. -/
def AspectRatio.value : AspectRatio → String
  | .square => "1:1"
  | .landscape => "16:9"
  | .portrait => "9:16"

/-- `VideoCodec` enum. -/
inductive VideoCodec
  | h264
  | h265
deriving DecidableEq, Repr

/-- `AudioCodec` enum. -/
inductive AudioCodec
  | aac
  | aac_lc
deriving DecidableEq, Repr

/-- `Resolution` model. -/
structure Resolution where
  width : Nat
  height : Nat
deriving DecidableEq, Repr

/-- `PlatformConfig` model. -/
structure PlatformConfig where
  name : String
  supported_formats : List String
  aspect_ratios : List AspectRatio
  max_duration_seconds : Nat
  max_file_size_mb : Nat
  video_codec : VideoCodec
  audio_codec : AudioCodec
  recommended_resolutions : List (AspectRatio × Resolution)
  max_bitrate_kbps : Option Nat := none
  audio_bitrate_kbps : Nat := 128
  notes : Option String := none
deriving DecidableEq, Repr

/-- `PLATFORM_CONFIGS`: the static platform registry. -/
def PLATFORM_CONFIGS : List (String × PlatformConfig) :=
  [ ("facebook",
     { name := "Facebook"
       supported_formats := ["mp4", "mov"]
       aspect_ratios := [.landscape, .portrait]
       max_duration_seconds := 14400
       max_file_size_mb := 4096
       video_codec := .h264
       audio_codec := .aac_lc
       recommended_resolutions :=
         [(.landscape, ⟨1920, 1080⟩), (.portrait, ⟨1080, 1920⟩)]
       notes := some "Stories limited to 2 minutes" }),
    ("instagram",
     { name := "Instagram"
       supported_formats := ["mp4"]
       aspect_ratios := [.square, .portrait]
       max_duration_seconds := 600
       max_file_size_mb := 4096
       video_codec := .h264
       audio_codec := .aac
       recommended_resolutions :=
         [(.square, ⟨1080, 1080⟩), (.portrait, ⟨1080, 1920⟩)]
       notes := some "Stories/Reels 15-90 seconds recommended" }),
    ("youtube",
     { name := "YouTube"
       supported_formats := ["mp4", "mov", "avi", "webm"]
       aspect_ratios := [.landscape, .portrait]
       max_duration_seconds := 900
       max_file_size_mb := 131072
       video_codec := .h264
       audio_codec := .aac
       recommended_resolutions :=
         [(.landscape, ⟨1920, 1080⟩), (.portrait, ⟨1080, 1920⟩)]
       notes := some "Shorts limited to 60 seconds, render at 1080p minimum" }),
    ("tiktok",
     { name := "TikTok"
       supported_formats := ["mp4", "mov"]
       aspect_ratios := [.portrait]
       max_duration_seconds := 180
       max_file_size_mb := 288
       video_codec := .h264
       audio_codec := .aac_lc
       recommended_resolutions := [(.portrait, ⟨1080, 1920⟩)]
       notes := some "Forced vertical videos, keep file size small" }),
    ("twitter",
     { name := "Twitter"
       supported_formats := ["mp4", "mov"]
       aspect_ratios := [.square, .landscape]
       max_duration_seconds := 140
       max_file_size_mb := 512
       video_codec := .h264
       audio_codec := .aac
       recommended_resolutions :=
         [(.square, ⟨1080, 1080⟩), (.landscape, ⟨1280, 720⟩)]
       notes := some "Optimized square videos, shorter lengths recommended" }),
    ("linkedin",
     { name := "LinkedIn"
       supported_formats := ["mp4"]
       aspect_ratios := [.landscape, .square, .portrait]
       max_duration_seconds := 180
       max_file_size_mb := 5120
       video_codec := .h264
       audio_codec := .aac
       recommended_resolutions :=
         [(.landscape, ⟨1920, 1080⟩), (.square, ⟨1080, 1080⟩),
          (.portrait, ⟨1080, 1920⟩)]
       notes := some "16:9 default, supports all ratios, high-quality audio" }) ]

/-- `list_supported_platforms()`. -/
def list_supported_platforms : List String := PLATFORM_CONFIGS.map Prod.fst

/-- `get_platform_config(platform)`; `ValueError` becomes `Except.error`. -/
def get_platform_config (platform : String) : Except String PlatformConfig :=
  if (PLATFORM_CONFIGS.find? (fun kv => kv.1 = strToLower platform)).isNone then
    .error ("Unsupported platform: " ++ platform)
  else
    match PLATFORM_CONFIGS.find? (fun kv => kv.1 = strToLower platform) with
    | some kv => .ok kv.2
    | none => .error ("Unsupported platform: " ++ platform)

/-! ### `audio/mastering.py`, `video/generation.py`: configuration models -/

/-- `AudioMasteringConfig` (pydantic model; defaults from the source). -/
structure AudioMasteringConfig where
  ozone_path : Option String := none
  preset_name : String := "Master Assistant"
  output_format : String := "wav"
  bit_depth : Nat := 24
  sample_rate : Nat := 44100
  normalize_loudness : Bool := true
  target_lufs : Rat := -14
deriving DecidableEq, Repr

/-- `VideoGenerationConfig` (pydantic model; defaults from the source). -/
structure VideoGenerationConfig where
  output_format : String := "mp4"
  video_bitrate : Option String := none
  audio_bitrate : String := "128k"
  fps : Nat := 30
  use_gpu_acceleration : Bool := true
  temp_dir : Option String := none
deriving DecidableEq, Repr

/-! ### `orchestration/workflow.py`: data model -/

/-- The four job states (the source stores them as the strings
`"pending" / "processing" / "completed" / "failed"`). -/
inductive JobStatus
  | pending
  | processing
  | completed
  | failed
deriving DecidableEq, Repr

/-- The status string the source stores. -/
def JobStatus.pyStr : JobStatus → String
  | .pending => "pending"
  | .processing => "processing"
  | .completed => "completed"
  | .failed => "failed"

/-- `ProcessingJob` dataclass. `output_files` maps a rendition key to
`str(path)` or the absence marker `None`. -/
structure ProcessingJob where
  job_id : String
  audio_file : FPath
  image_file : FPath
  platforms : List String
  status : JobStatus := .pending
  output_files : List (String × Option String) := []
  error_message : Option String := none
deriving DecidableEq, Repr

/-- `WorkflowConfig` (pydantic model; `output_base_dir` is an opaque base
directory contributing one path segment). -/
structure WorkflowConfig where
  max_concurrent_jobs : Nat := 4
  audio_mastering : AudioMasteringConfig := {}
  video_generation : VideoGenerationConfig := {}
  output_base_dir : String := "./output"
  log_file : Option String := none
  resume_on_failure : Bool := true
deriving DecidableEq, Repr

/-- An unmodified `WorkflowConfig()`. -/
def WorkflowConfig.default : WorkflowConfig := {}

/-- `self.output_dir`. -/
def output_dir (cfg : WorkflowConfig) : FPath := [cfg.output_base_dir]

/-- `self.mastered_audio_dir`. -/
def mastered_audio_dir (cfg : WorkflowConfig) : FPath :=
  output_dir cfg ++ ["mastered_audio"]

/-- `self.videos_dir`. -/
def videos_dir (cfg : WorkflowConfig) : FPath := output_dir cfg ++ ["videos"]

/-- Outcomes of the two external collaborators, per invocation:
`AudioMasterer.master_audio_file(input, output)` and
`VideoGenerator.create_video(image, audio, output, platform_config,
aspect_ratio)`, each reporting success as `Bool`. -/
structure StageOracle where
  master_audio_file : FPath → FPath → Bool
  create_video : FPath → FPath → FPath → PlatformConfig → AspectRatio → Bool

/-- One recorded invocation of the render collaborator. -/
structure RenderCall where
  image : FPath
  audio : FPath
  output : FPath
  platform_name : String
  ratio : AspectRatio
deriving DecidableEq, Repr

/-- Stage invocations performed while processing one job. -/
structure JobTrace where
  mastering_calls : List (FPath × FPath) := []
  render_calls : List RenderCall := []
deriving DecidableEq, Repr

/-! ### `video/generation.py`: `create_multi_platform_videos` -/

/-- Directory name for a platform (`name.lower().replace(" ", "_")`). -/
def platformDirName (c : PlatformConfig) : String :=
  replaceChar (strToLower c.name) ' ' '_' 

/-- Suffix for an aspect ratio (`value.replace(":", "x")`). -/
def ratioSuffix (r : AspectRatio) : String := replaceChar r.value ':' 'x'

/-- The rendition key (`f"\x7bplatform_config.name\x7d_\x7baspect_ratio.value\x7d"`). -/
def renditionKey (c : PlatformConfig) (r : AspectRatio) : String :=
  c.name ++ "_" ++ r.value

/-- The output path of one rendition. -/
def renditionPath (output_dir' : FPath) (c : PlatformConfig) (r : AspectRatio)
    (base fmt : String) : FPath :=
  output_dir' ++ [platformDirName c,
    base ++ "_" ++ platformDirName c ++ "_" ++ ratioSuffix r ++ "." ++ fmt]

/-- Inner loop of `create_multi_platform_videos`: one platform's aspect
ratios. Returns the updated results dict, the files created, and the
invocations made. -/
def renderRatiosLoop (oracle : StageOracle) (image audio : FPath)
    (output_dir' : FPath) (c : PlatformConfig) (base fmt : String) :
    List AspectRatio → List (String × Option FPath) →
    List (String × Option FPath) × List FPath × List RenderCall
  | [], results => (results, [], [])
  | r :: rs, results =>
    let out := renditionPath output_dir' c r base fmt
    let success := oracle.create_video image audio out c r
    let results' := dictInsert results (renditionKey c r)
      (if success then some out else none)
    let (resultsFin, created, calls) :=
      renderRatiosLoop oracle image audio output_dir' c base fmt rs results'
    (resultsFin, (if success then [out] else []) ++ created,
      ⟨image, audio, out, c.name, r⟩ :: calls)

/-- Outer loop of `create_multi_platform_videos`: the platform list. -/
def renderPlatformsLoop (oracle : StageOracle) (image audio : FPath)
    (output_dir' : FPath) (base fmt : String) :
    List PlatformConfig → List (String × Option FPath) →
    List (String × Option FPath) × List FPath × List RenderCall
  | [], results => (results, [], [])
  | c :: cs, results =>
    let (results', created, calls) :=
      renderRatiosLoop oracle image audio output_dir' c base fmt
        c.aspect_ratios results
    let (resultsFin, created', calls') :=
      renderPlatformsLoop oracle image audio output_dir' base fmt cs results'
    (resultsFin, created ++ created', calls ++ calls')

/-- `VideoGenerator.create_multi_platform_videos(image, audio, output_dir,
platforms, base_filename)`: renders every supported aspect ratio of every
platform, collecting outcomes in a dict keyed by `renditionKey`. -/
def create_multi_platform_videos (gcfg : VideoGenerationConfig)
    (oracle : StageOracle) (image audio : FPath) (output_dir' : FPath)
    (platforms : List PlatformConfig) (base : String) :
    List (String × Option FPath) × List FPath × List RenderCall :=
  renderPlatformsLoop oracle image audio output_dir' base gcfg.output_format
    platforms []

/-! ### `orchestration/workflow.py`: the per-job pipeline -/

/-- The expected mastered-audio artifact of a job
(`mastered_audio_dir / f"\x7bjob.audio_file.stem\x7d_mastered.wav"`). -/
def mastered_audio_path (cfg : WorkflowConfig) (job : ProcessingJob) : FPath :=
  mastered_audio_dir cfg ++ [job.audio_file.stem ++ "_mastered.wav"]

/-- The per-job video output directory (`videos_dir / job.job_id`). -/
def job_videos_dir (cfg : WorkflowConfig) (job : ProcessingJob) : FPath :=
  videos_dir cfg ++ [job.job_id]

/-- `[get_platform_config(p) for p in platforms]`: left-to-right, first
`ValueError` propagates. -/
def resolvePlatforms : List String → Except String (List PlatformConfig)
  | [] => .ok []
  | p :: ps =>
    match get_platform_config p with
    | .error e => .error e
    | .ok c =>
      match resolvePlatforms ps with
      | .error e => .error e
      | .ok cs => .ok (c :: cs)

/-- The failure message naming the failed rendition keys
(`f"Failed to create videos: \x7bfailed_videos\x7d"`). -/
def videoFailMessage (failed : List String) : String :=
  "Failed to create videos: " ++ pyListRepr failed

/-- `WorkflowOrchestrator._process_single_job(job)`: the two-stage pipeline.
Returns the updated job, the updated filesystem (files the stages created),
and the collaborator invocations made. -/
def process_single_job (cfg : WorkflowConfig) (oracle : StageOracle) (fs : FS)
    (job : ProcessingJob) : ProcessingJob × FS × JobTrace :=
  let job1 := { job with status := .processing }
  let mpath := mastered_audio_path cfg job
  let masteringNeeded : Bool := !(decide (mpath ∈ fs)) || !cfg.resume_on_failure
  let mtrace : List (FPath × FPath) :=
    if masteringNeeded then [(job.audio_file, mpath)] else []
  if masteringNeeded && !(oracle.master_audio_file job.audio_file mpath) then
    ({ job1 with
        status := .failed
        error_message := some "Audio mastering failed" }, fs,
     { mastering_calls := mtrace })
  else
    let fs1 := if masteringNeeded then fs ++ [mpath] else fs
    match resolvePlatforms job.platforms with
    | .error e =>
      ({ job1 with status := .failed, error_message := some e }, fs1,
       { mastering_calls := mtrace })
    | .ok platform_configs =>
      let (video_results, created, calls) :=
        create_multi_platform_videos cfg.video_generation oracle
          job.image_file mpath (job_videos_dir cfg job) platform_configs
          job.job_id
      let outputs := video_results.map (fun kv => (kv.1, kv.2.map pathStr))
      let failed_videos := (video_results.filter (fun kv => kv.2 = none)).map Prod.fst
      let trace : JobTrace :=
        { mastering_calls := mtrace, render_calls := calls }
      let fs2 := fs1 ++ created
      if failed_videos.isEmpty then
        ({ job1 with
            status := .completed
            output_files := outputs }, fs2, trace)
      else
        ({ job1 with
            status := .failed
            output_files := outputs
            error_message := some (videoFailMessage failed_videos) }, fs2, trace)

/-! ### `orchestration/workflow.py`: the orchestrator operations -/

/-- The status histogram returned by `process_all_jobs`. -/
structure Histogram where
  pending : Nat
  processing : Nat
  completed : Nat
  failed : Nat
deriving DecidableEq, Repr

/-- The final summary loop of `process_all_jobs`. -/
def statusCounts (jobs : List ProcessingJob) : Histogram :=
  { pending := (jobs.filter (fun j => j.status = .pending)).length
    processing := (jobs.filter (fun j => j.status = .processing)).length
    completed := (jobs.filter (fun j => j.status = .completed)).length
    failed := (jobs.filter (fun j => j.status = .failed)).length }

/-- Work performed during one `process_all_jobs` run: the ids of the jobs
submitted to the pool and all collaborator invocations. -/
structure RunTrace where
  dispatched : List String := []
  mastering_calls : List (FPath × FPath) := []
  render_calls : List RenderCall := []
deriving DecidableEq, Repr

/-- The worker-pool run over the job list: every `pending` job is processed
(each by exactly one worker), every other job is left untouched. The pool's
execution is modelled by its list-order linearization, threading the
filesystem. -/
def processPending (cfg : WorkflowConfig) (oracle : StageOracle) :
    List ProcessingJob → FS → List ProcessingJob × FS × RunTrace
  | [], fs => ([], fs, {})
  | j :: rest, fs =>
    if j.status = .pending then
      let r := process_single_job cfg oracle fs j
      let rest' := processPending cfg oracle rest r.2.1
      (r.1 :: rest'.1, rest'.2.1,
       { dispatched := j.job_id :: rest'.2.2.dispatched
         mastering_calls := r.2.2.mastering_calls ++ rest'.2.2.mastering_calls
         render_calls := r.2.2.render_calls ++ rest'.2.2.render_calls })
    else
      let rest' := processPending cfg oracle rest fs
      (j :: rest'.1, rest'.2.1, rest'.2.2)

/-- `WorkflowOrchestrator.process_all_jobs()`. -/
def process_all_jobs (cfg : WorkflowConfig) (oracle : StageOracle)
    (jobs : List ProcessingJob) (fs : FS) :
    List ProcessingJob × FS × Histogram × RunTrace :=
  if jobs.isEmpty then
    (jobs, fs, ⟨0, 0, 0, 0⟩, {})
  else if (jobs.filter (fun j => j.status = .pending)).isEmpty then
    (jobs, fs, statusCounts jobs, {})
  else
    let r := processPending cfg oracle jobs fs
    (r.1, r.2.1, statusCounts r.1, r.2.2)

/-- `WorkflowOrchestrator.retry_failed_jobs()`. -/
def resetFailedJob (j : ProcessingJob) : ProcessingJob :=
  if j.status = .failed then
    { j with status := .pending, error_message := none }
  else j

/-- `retry_failed_jobs`: reset every failed job, then process all jobs. -/
def retry_failed_jobs (cfg : WorkflowConfig) (oracle : StageOracle)
    (jobs : List ProcessingJob) (fs : FS) :
    List ProcessingJob × FS × Histogram × RunTrace :=
  process_all_jobs cfg oracle (jobs.map resetFailedJob) fs

/-! ### `orchestration/workflow.py`: `add_job` -/

/-- The exceptions `add_job` raises: `FileNotFoundError` and `ValueError`. -/
inductive AddJobError
  | fileNotFound (msg : String)
  | unsupportedPlatforms (invalid : List String)
deriving DecidableEq, Repr

/-- The generated job id (`f"\x7baudio_path.stem\x7d_\x7blen(self.jobs)\x7d"`). -/
def autoJobId (audio : FPath) (numJobs : Nat) : String :=
  audio.stem ++ "_" ++ toString numJobs

/-- `WorkflowOrchestrator.add_job(audio_file, image_file, platforms, job_id)`.
Returns the orchestrator's job list (unchanged when an exception is raised)
and the created job or the exception. -/
def add_job (fs : FS) (jobs : List ProcessingJob) (audio image : FPath)
    (platforms : List String) (jobId : Option String) :
    List ProcessingJob × Except AddJobError ProcessingJob :=
  if audio ∉ fs then
    (jobs, .error (.fileNotFound ("Audio file not found: " ++ pathStr audio)))
  else if image ∉ fs then
    (jobs, .error (.fileNotFound ("Image file not found: " ++ pathStr image)))
  else
    let invalid := platforms.filter
      (fun p => ¬ (strToLower p ∈ list_supported_platforms))
    if ¬ invalid.isEmpty then
      (jobs, .error (.unsupportedPlatforms invalid))
    else
      let jid := jobId.getD (autoJobId audio jobs.length)
      let job : ProcessingJob :=
        { job_id := jid, audio_file := audio, image_file := image,
          platforms := platforms.map strToLower }
      (jobs ++ [job], .ok job)

/-! ### `orchestration/workflow.py`: `export_job_report` -/

/-- JSON documents, as written by `json.dump`. -/
inductive Json
  | null
  | bool (b : Bool)
  | num (q : Rat)
  | str (s : String)
  | arr (elems : List Json)
  | obj (fields : List (String × Json))

/-- Serialization of an optional string (`None` becomes JSON `null`). -/
def optStr : Option String → Json
  | none => .null
  | some s => .str s

/-- `AudioMasteringConfig.dict()`. -/
def AudioMasteringConfig.toJson (c : AudioMasteringConfig) : Json :=
  .obj [("ozone_path", optStr c.ozone_path),
        ("preset_name", .str c.preset_name),
        ("output_format", .str c.output_format),
        ("bit_depth", .num c.bit_depth),
        ("sample_rate", .num c.sample_rate),
        ("normalize_loudness", .bool c.normalize_loudness),
        ("target_lufs", .num c.target_lufs)]

/-- `VideoGenerationConfig.dict()`. -/
def VideoGenerationConfig.toJson (c : VideoGenerationConfig) : Json :=
  .obj [("output_format", .str c.output_format),
        ("video_bitrate", optStr c.video_bitrate),
        ("audio_bitrate", .str c.audio_bitrate),
        ("fps", .num c.fps),
        ("use_gpu_acceleration", .bool c.use_gpu_acceleration),
        ("temp_dir", optStr c.temp_dir)]

/-- `dataclasses.asdict(job)`, with `Path` values rendered by
`json.dump(..., default=str)`. -/
def jobRecord (j : ProcessingJob) : Json :=
  .obj [("job_id", .str j.job_id),
        ("audio_file", .str (pathStr j.audio_file)),
        ("image_file", .str (pathStr j.image_file)),
        ("platforms", .arr (j.platforms.map .str)),
        ("status", .str j.status.pyStr),
        ("output_files", .obj (j.output_files.map fun kv => (kv.1, optStr kv.2))),
        ("error_message", optStr j.error_message)]

/-- `WorkflowOrchestrator.export_job_report(output_file)`: the JSON
document written to the file. -/
def export_job_report (cfg : WorkflowConfig) (jobs : List ProcessingJob) :
    Json :=
  .obj [("workflow_config", .obj [
          ("max_concurrent_jobs", .num cfg.max_concurrent_jobs),
          ("output_base_dir", .str cfg.output_base_dir),
          ("audio_mastering", cfg.audio_mastering.toJson),
          ("video_generation", cfg.video_generation.toJson)]),
        ("jobs", .arr (jobs.map jobRecord)),
        ("summary", .obj [
          ("total_jobs", .num jobs.length),
          ("completed", .num (jobs.filter (fun j => j.status = .completed)).length),
          ("failed", .num (jobs.filter (fun j => j.status = .failed)).length),
          ("pending", .num (jobs.filter (fun j => j.status = .pending)).length)])]

/-- Key lookup in a JSON object. -/
def Json.getKey? : Json → String → Option Json
  | .obj fields, k => (fields.find? (fun kv => kv.1 = k)).map Prod.snd
  | _, _ => none

/-! ### Reachable orchestrator states -/

/-- The job lists reachable through the orchestrator's operations: a fresh
orchestrator, `add_job` (against any filesystem, with any arguments),
`process_all_jobs` and `retry_failed_jobs` (with any collaborator
behavior), and `clear_jobs`. -/
inductive Reach (cfg : WorkflowConfig) : List ProcessingJob → Prop
  | init : Reach cfg []
  | add (fs : FS) (audio image : FPath) (platforms : List String)
      (jobId : Option String) (jobs : List ProcessingJob)
      (h : Reach cfg jobs) :
      Reach cfg (add_job fs jobs audio image platforms jobId).1
  | processAll (oracle : StageOracle) (fs : FS) (jobs : List ProcessingJob)
      (h : Reach cfg jobs) :
      Reach cfg (process_all_jobs cfg oracle jobs fs).1
  | retry (oracle : StageOracle) (fs : FS) (jobs : List ProcessingJob)
      (h : Reach cfg jobs) :
      Reach cfg (retry_failed_jobs cfg oracle jobs fs).1
  | clear (jobs : List ProcessingJob) (h : Reach cfg jobs) :
      Reach cfg []

/-! ### The worker pool as a step relation (for the concurrency bound)

`process_all_jobs` submits the pending jobs to a
`ThreadPoolExecutor(max_workers = cfg.max_concurrent_jobs)`. The pool's
contract is that at most `max_workers` submitted tasks run at any instant;
each running task is one `_process_single_job`, which moves its job to
`processing` on entry and to a terminal status before returning. -/

/-- An instantaneous state of the pool run: each job's status, and the
indices of the jobs currently held by a running worker. -/
structure PoolState where
  statuses : List JobStatus
  running : List Nat
deriving DecidableEq, Repr

/-- Interleaved execution steps of the pool, bounded by
`cfg.max_concurrent_jobs` workers: a worker may start a pending job only
while fewer than `max_concurrent_jobs` tasks are running (the executor's
bound), and a worker finishing moves its job to a terminal status. -/
inductive PoolStep (cfg : WorkflowConfig) : PoolState → PoolState → Prop
  | start (s : PoolState) (i : Nat) (hi : i < s.statuses.length)
      (hp : s.statuses.get ⟨i, hi⟩ = .pending)
      (hcap : s.running.length < cfg.max_concurrent_jobs) :
      PoolStep cfg s ⟨s.statuses.set i .processing, i :: s.running⟩
  | finish (s : PoolState) (i : Nat) (st : JobStatus)
      (hmem : i ∈ s.running)
      (hterm : st = .completed ∨ st = .failed) :
      PoolStep cfg s ⟨s.statuses.set i st, s.running.erase i⟩

/-- The number of jobs in `processing` state at an instant. -/
def processingCount (statuses : List JobStatus) : Nat :=
  (statuses.filter (fun st => st = .processing)).length

/-! ### Specification-level vocabulary for the render phase -/

/-- The (platform, supported-aspect-ratio) pairs of a resolved platform
list, in iteration order. -/
def renditionPairs (pcs : List PlatformConfig) :
    List (PlatformConfig × AspectRatio) :=
  pcs.bind (fun c => c.aspect_ratios.map (fun r => (c, r)))

/-- The outcome of one rendition, as decided by the collaborator. -/
def renditionOutcome (oracle : StageOracle) (image audio vdir : FPath)
    (base fmt : String) (c : PlatformConfig) (r : AspectRatio) :
    Option FPath :=
  if oracle.create_video image audio (renditionPath vdir c r base fmt) c r
  then some (renditionPath vdir c r base fmt) else none

/-- The expected results dict of `create_multi_platform_videos`: one entry
per (platform, supported-aspect-ratio) pair, in order. -/
def expectedResults (oracle : StageOracle) (image audio vdir : FPath)
    (base fmt : String) (pcs : List PlatformConfig) :
    List (String × Option FPath) :=
  (renditionPairs pcs).map
    (fun cr => (renditionKey cr.1 cr.2,
      renditionOutcome oracle image audio vdir base fmt cr.1 cr.2))

/-- The expected render invocations: exactly one per pair, in order. -/
def expectedCalls (image audio vdir : FPath) (base fmt : String)
    (pcs : List PlatformConfig) : List RenderCall :=
  (renditionPairs pcs).map
    (fun cr => ⟨image, audio, renditionPath vdir cr.1 cr.2 base fmt,
      cr.1.name, cr.2⟩)

/-- The keys of the failed renditions, in order. -/
def expectedFailedKeys (oracle : StageOracle) (image audio vdir : FPath)
    (base fmt : String) (pcs : List PlatformConfig) : List String :=
  ((expectedResults oracle image audio vdir base fmt pcs).filter
    (fun kv => kv.2 = none)).map Prod.fst

/-! ### Helper lemmas: dict updates and the render loops -/

theorem dictInsert_of_fresh {α : Type} (d : List (String × α)) (k : String)
    (v : α) (h : k ∉ dictKeys d) : dictInsert d k v = d ++ [(k, v)] := by
  unfold dictInsert
  rw [if_neg]
  simp only [List.any_eq_true, decide_eq_true_eq, not_exists, not_and]
  intro kv hkv
  exact fun hk => h (hk ▸ List.mem_map_of_mem Prod.fst hkv)

theorem dictKeys_append {α : Type} (d e : List (String × α)) :
    dictKeys (d ++ e) = dictKeys d ++ dictKeys e := by
  simp [dictKeys]

/-- Closed form of the inner render loop on fresh, duplicate-free keys. -/
theorem renderRatiosLoop_closed (oracle : StageOracle)
    (image audio vdir : FPath) (c : PlatformConfig) (base fmt : String) :
    ∀ (rs : List AspectRatio) (acc : List (String × Option FPath)),
    (∀ r ∈ rs, renditionKey c r ∉ dictKeys acc) →
    (rs.map (renditionKey c)).Nodup →
    renderRatiosLoop oracle image audio vdir c base fmt rs acc =
      (acc ++ rs.map (fun r => (renditionKey c r,
          renditionOutcome oracle image audio vdir base fmt c r)),
       rs.bind (fun r =>
          (renditionOutcome oracle image audio vdir base fmt c r).toList),
       rs.map (fun r => ⟨image, audio, renditionPath vdir c r base fmt,
          c.name, r⟩))
  | [], acc, _, _ => by simp [renderRatiosLoop]
  | r :: rs, acc, hfresh, hnd => by
    have hk : renditionKey c r ∉ dictKeys acc :=
      hfresh r (List.mem_cons_self r rs)
    have hnd' : (rs.map (renditionKey c)).Nodup := by
      simpa using hnd.of_cons
    have hfresh' : ∀ r' ∈ rs, renditionKey c r' ∉
        dictKeys (acc ++ [(renditionKey c r,
          renditionOutcome oracle image audio vdir base fmt c r)]) := by
      intro r' hr'
      rw [dictKeys_append]
      simp only [List.mem_append, not_or]
      refine ⟨hfresh r' (List.mem_cons_of_mem r hr'), ?_⟩
      have hne : renditionKey c r ∉ rs.map (renditionKey c) := by
        have h2 : ((renditionKey c r) :: rs.map (renditionKey c)).Nodup := by
          simpa using hnd
        exact (List.nodup_cons.mp h2).1
      simp only [dictKeys, List.map_cons, List.map_nil, List.mem_singleton]
      exact fun he => hne (he ▸ List.mem_map_of_mem (renditionKey c) hr')
    have ih := renderRatiosLoop_closed oracle image audio vdir c base fmt rs
      (acc ++ [(renditionKey c r,
        renditionOutcome oracle image audio vdir base fmt c r)]) hfresh' hnd'
    simp only [renderRatiosLoop,
      dictInsert_of_fresh _ _ _ hk, renditionOutcome] at ih ⊢
    rw [ih]
    simp only [Prod.mk.injEq]
    refine ⟨by simp, ?_, rfl⟩
    by_cases hsucc :
        oracle.create_video image audio (renditionPath vdir c r base fmt)
          c r = true
    · simp [hsucc]
    · simp only [Bool.not_eq_true] at hsucc
      simp [hsucc]

/-- Closed form of the outer render loop on fresh, duplicate-free keys. -/
theorem renderPlatformsLoop_closed (oracle : StageOracle)
    (image audio vdir : FPath) (base fmt : String) :
    ∀ (pcs : List PlatformConfig) (acc : List (String × Option FPath)),
    (∀ k ∈ (renditionPairs pcs).map (fun cr => renditionKey cr.1 cr.2),
      k ∉ dictKeys acc) →
    ((renditionPairs pcs).map (fun cr => renditionKey cr.1 cr.2)).Nodup →
    renderPlatformsLoop oracle image audio vdir base fmt pcs acc =
      (acc ++ expectedResults oracle image audio vdir base fmt pcs,
       (renditionPairs pcs).bind (fun cr =>
         (renditionOutcome oracle image audio vdir base fmt cr.1 cr.2).toList),
       expectedCalls image audio vdir base fmt pcs)
  | [], acc, _, _ => by
    simp [renderPlatformsLoop, renditionPairs, expectedResults, expectedCalls]
  | c :: cs, acc, hfresh, hnd => by
    have hsplit : (renditionPairs (c :: cs)).map
        (fun cr => renditionKey cr.1 cr.2) =
        c.aspect_ratios.map (renditionKey c) ++
        (renditionPairs cs).map (fun cr => renditionKey cr.1 cr.2) := by
      simp [renditionPairs, Function.comp]
    rw [hsplit] at hfresh hnd
    have hnd1 : (c.aspect_ratios.map (renditionKey c)).Nodup :=
      hnd.of_append_left
    have hnd2 : ((renditionPairs cs).map
        (fun cr => renditionKey cr.1 cr.2)).Nodup := hnd.of_append_right
    have hfresh1 : ∀ r ∈ c.aspect_ratios, renditionKey c r ∉ dictKeys acc :=
      fun r hr => hfresh _ (List.mem_append_left _
        (List.mem_map_of_mem (renditionKey c) hr))
    have hinner := renderRatiosLoop_closed oracle image audio vdir c base fmt
      c.aspect_ratios acc hfresh1 hnd1
    have hfresh2 : ∀ k ∈ (renditionPairs cs).map
        (fun cr => renditionKey cr.1 cr.2),
        k ∉ dictKeys (acc ++ c.aspect_ratios.map (fun r => (renditionKey c r,
          renditionOutcome oracle image audio vdir base fmt c r))) := by
      intro k hkmem
      rw [dictKeys_append]
      simp only [List.mem_append, not_or]
      refine ⟨hfresh k (List.mem_append_right _ hkmem), ?_⟩
      intro hacc
      have hk1 : k ∈ c.aspect_ratios.map (renditionKey c) := by
        simpa [dictKeys, Function.comp] using hacc
      exact (List.disjoint_of_nodup_append hnd) hk1 hkmem
    have ih := renderPlatformsLoop_closed oracle image audio vdir base fmt cs
      (acc ++ c.aspect_ratios.map (fun r => (renditionKey c r,
        renditionOutcome oracle image audio vdir base fmt c r)))
      hfresh2 hnd2
    simp only [renderPlatformsLoop, hinner, ih]
    simp only [Prod.mk.injEq]
    refine ⟨?_, ?_, ?_⟩
    · simp [expectedResults, renditionPairs, Function.comp, List.append_assoc]
    · simp [renditionPairs, List.flatMap_map, Function.comp]
    · simp [expectedCalls, renditionPairs, Function.comp]

/-! ### Rendition keys of catalog platforms are duplicate-free -/

/-- The rendition keys a platform contributes. -/
def configKeys (c : PlatformConfig) : List String :=
  c.aspect_ratios.map (renditionKey c)

theorem configKeys_nodup : ∀ kv ∈ PLATFORM_CONFIGS, (configKeys kv.2).Nodup := by
  decide

theorem configKeys_disjoint : ∀ kv1 ∈ PLATFORM_CONFIGS, ∀ kv2 ∈ PLATFORM_CONFIGS,
    kv1.1 ≠ kv2.1 → ∀ k ∈ configKeys kv1.2, k ∉ configKeys kv2.2 := by
  decide

theorem get_platform_config_ok {p : String} {c : PlatformConfig}
    (h : get_platform_config p = .ok c) :
    ∃ kv ∈ PLATFORM_CONFIGS, kv.1 = strToLower p ∧ kv.2 = c := by
  unfold get_platform_config at h
  split at h
  · exact absurd h (by simp)
  · split at h
    next kv hfind =>
      refine ⟨kv, List.mem_of_find?_eq_some hfind, ?_, ?_⟩
      · have := List.find?_some hfind
        simpa using this
      · simpa using h
    next => exact absurd h (by simp)

theorem resolvePlatforms_mem : ∀ (ps : List String)
    (pcs : List PlatformConfig), resolvePlatforms ps = .ok pcs →
    ∀ c ∈ pcs, ∃ p ∈ ps, ∃ kv ∈ PLATFORM_CONFIGS, kv.1 = strToLower p ∧ kv.2 = c
  | [], pcs, h, c, hc => by
    simp only [resolvePlatforms, Except.ok.injEq] at h
    subst h
    exact absurd hc (List.not_mem_nil c)
  | p :: ps, pcs, h, c, hc => by
    simp only [resolvePlatforms] at h
    split at h
    · exact absurd h (by simp)
    next c0 hp =>
      split at h
      · exact absurd h (by simp)
      next cs hps =>
        simp only [Except.ok.injEq] at h
        subst h
        rcases List.mem_cons.mp hc with hc0 | hcs
        · subst hc0
          obtain ⟨kv, hkv, hk1, hk2⟩ := get_platform_config_ok hp
          exact ⟨p, List.mem_cons_self p ps, kv, hkv, hk1, hk2⟩
        · obtain ⟨p', hp', kv, hkv, hk1, hk2⟩ :=
            resolvePlatforms_mem ps cs hps c hcs
          exact ⟨p', List.mem_cons_of_mem p hp', kv, hkv, hk1, hk2⟩

theorem mem_renditionKeys {k : String} {pcs : List PlatformConfig} :
    k ∈ (renditionPairs pcs).map (fun cr => renditionKey cr.1 cr.2) ↔
    ∃ c ∈ pcs, k ∈ configKeys c := by
  simp only [renditionPairs, configKeys, List.map_flatMap, List.mem_flatMap,
    List.map_map, Function.comp, List.mem_map]

/-- Resolving a duplicate-free platform list yields pairwise-distinct
rendition keys: the render stage runs exactly once per key. -/
theorem resolve_keys_nodup : ∀ (ps : List String) (pcs : List PlatformConfig),
    (ps.map strToLower).Nodup → resolvePlatforms ps = .ok pcs →
    ((renditionPairs pcs).map (fun cr => renditionKey cr.1 cr.2)).Nodup
  | [], pcs, _, h => by
    simp only [resolvePlatforms, Except.ok.injEq] at h
    subst h
    simp [renditionPairs]
  | p :: ps, pcs, hnd, h => by
    simp only [resolvePlatforms] at h
    split at h
    · exact absurd h (by simp)
    next c0 hp =>
      split at h
      · exact absurd h (by simp)
      next cs hps =>
        simp only [Except.ok.injEq] at h
        subst h
        have hsplit : (renditionPairs (c0 :: cs)).map
            (fun cr => renditionKey cr.1 cr.2) =
            configKeys c0 ++
            (renditionPairs cs).map (fun cr => renditionKey cr.1 cr.2) := by
          simp [renditionPairs, configKeys, Function.comp]
        rw [hsplit]
        have hndtail : (ps.map strToLower).Nodup := by
          simpa using hnd.of_cons
        have hnotin : strToLower p ∉ ps.map strToLower := by
          have h2 : (strToLower p :: ps.map strToLower).Nodup := by
            simpa using hnd
          exact (List.nodup_cons.mp h2).1
        obtain ⟨kv, hkv, hk1, hk2⟩ := get_platform_config_ok hp
        refine List.Nodup.append ?_ (resolve_keys_nodup ps cs hndtail hps) ?_
        · exact hk2 ▸ configKeys_nodup kv hkv
        · intro k hk0 hkcs
          obtain ⟨c', hc', hkc'⟩ := mem_renditionKeys.mp hkcs
          obtain ⟨p', hp', kv', hkv', hk1', hk2'⟩ :=
            resolvePlatforms_mem ps cs hps c' hc'
          have hne : kv.1 ≠ kv'.1 := by
            rw [hk1, hk1']
            intro he
            exact hnotin (he ▸ List.mem_map_of_mem strToLower hp')
          exact configKeys_disjoint kv hkv kv' hkv' hne k (hk2 ▸ hk0)
            (hk2' ▸ hkc')

/-! ### Claim C1 -/

/-- C1: for every job whose mastering stage succeeds (or is skipped by
resume), the worker invokes the render stage exactly once per
(platform, supported-aspect-ratio) pair of the job's platforms — the call
list is one call per pair, with pairwise-distinct rendition keys — records
every outcome in `output_files` keyed by `platform+aspectRatio` with `none`
as the absence marker for failed renditions, and sets the job's status to
`failed` with a message enumerating the failed rendition keys if any
rendition failed, and to `completed` otherwise. -/
theorem claim_C1 (cfg : WorkflowConfig) (oracle : StageOracle) (fs : FS)
    (job : ProcessingJob) (pcs : List PlatformConfig)
    (hmaster : (mastered_audio_path cfg job ∈ fs ∧
        cfg.resume_on_failure = true) ∨
      oracle.master_audio_file job.audio_file
        (mastered_audio_path cfg job) = true)
    (hres : resolvePlatforms job.platforms = .ok pcs)
    (hnd : (job.platforms.map strToLower).Nodup) :
    (process_single_job cfg oracle fs job).2.2.render_calls =
      expectedCalls job.image_file (mastered_audio_path cfg job)
        (job_videos_dir cfg job) job.job_id
        cfg.video_generation.output_format pcs ∧
    ((renditionPairs pcs).map (fun cr => renditionKey cr.1 cr.2)).Nodup ∧
    (process_single_job cfg oracle fs job).1.output_files =
      (expectedResults oracle job.image_file (mastered_audio_path cfg job)
        (job_videos_dir cfg job) job.job_id
        cfg.video_generation.output_format pcs).map
        (fun kv => (kv.1, kv.2.map pathStr)) ∧
    (expectedFailedKeys oracle job.image_file (mastered_audio_path cfg job)
        (job_videos_dir cfg job) job.job_id
        cfg.video_generation.output_format pcs = [] →
      (process_single_job cfg oracle fs job).1.status = .completed ∧
      (process_single_job cfg oracle fs job).1.error_message =
        job.error_message) ∧
    (expectedFailedKeys oracle job.image_file (mastered_audio_path cfg job)
        (job_videos_dir cfg job) job.job_id
        cfg.video_generation.output_format pcs ≠ [] →
      (process_single_job cfg oracle fs job).1.status = .failed ∧
      (process_single_job cfg oracle fs job).1.error_message =
        some (videoFailMessage (expectedFailedKeys oracle job.image_file
          (mastered_audio_path cfg job) (job_videos_dir cfg job) job.job_id
          cfg.video_generation.output_format pcs))) := by
  have hkeys := resolve_keys_nodup job.platforms pcs hnd hres
  have hcond : ((!(decide (mastered_audio_path cfg job ∈ fs)) ||
      !cfg.resume_on_failure) &&
      !(oracle.master_audio_file job.audio_file
        (mastered_audio_path cfg job))) = false := by
    rcases hmaster with ⟨hin, hresume⟩ | hm
    · simp [hin, hresume]
    · simp [hm]
  have hclosed := renderPlatformsLoop_closed oracle job.image_file
    (mastered_audio_path cfg job) (job_videos_dir cfg job) job.job_id
    cfg.video_generation.output_format pcs []
    (by intro k _ hk; simp [dictKeys] at hk) hkeys
  have hrun : process_single_job cfg oracle fs job =
      ({ job with
          status := if (expectedResults oracle job.image_file
              (mastered_audio_path cfg job) (job_videos_dir cfg job)
              job.job_id cfg.video_generation.output_format pcs).filter
              (fun kv => kv.2 = none) |>.map Prod.fst |>.isEmpty
            then .completed else .failed
          output_files := (expectedResults oracle job.image_file
            (mastered_audio_path cfg job) (job_videos_dir cfg job)
            job.job_id cfg.video_generation.output_format pcs).map
            (fun kv => (kv.1, kv.2.map pathStr))
          error_message := if (expectedResults oracle job.image_file
              (mastered_audio_path cfg job) (job_videos_dir cfg job)
              job.job_id cfg.video_generation.output_format pcs).filter
              (fun kv => kv.2 = none) |>.map Prod.fst |>.isEmpty
            then job.error_message
            else some (videoFailMessage ((expectedResults oracle
              job.image_file (mastered_audio_path cfg job)
              (job_videos_dir cfg job) job.job_id
              cfg.video_generation.output_format pcs).filter
              (fun kv => kv.2 = none) |>.map Prod.fst)) },
        (if (!(decide (mastered_audio_path cfg job ∈ fs)) ||
            !cfg.resume_on_failure) = true
          then fs ++ [mastered_audio_path cfg job] else fs) ++
          (renditionPairs pcs).flatMap (fun cr =>
            (renditionOutcome oracle job.image_file
              (mastered_audio_path cfg job) (job_videos_dir cfg job)
              job.job_id cfg.video_generation.output_format
              cr.1 cr.2).toList),
        { mastering_calls := if (!(decide (mastered_audio_path cfg job ∈ fs))
              || !cfg.resume_on_failure) = true
            then [(job.audio_file, mastered_audio_path cfg job)] else []
          render_calls := expectedCalls job.image_file
            (mastered_audio_path cfg job) (job_videos_dir cfg job)
            job.job_id cfg.video_generation.output_format pcs }) := by
    unfold process_single_job create_multi_platform_videos
    simp only [hcond, Bool.false_eq_true, if_false, hres,
      hclosed, List.nil_append]
    split
    · simp_all
    · simp_all
  refine ⟨by rw [hrun], hkeys, by rw [hrun], ?_, ?_⟩
  · intro hempty
    rw [hrun]
    unfold expectedFailedKeys at hempty
    simp only [List.isEmpty_eq_true]
    rw [if_pos hempty, if_pos hempty]
    exact ⟨rfl, rfl⟩
  · intro hne
    rw [hrun]
    unfold expectedFailedKeys at hne
    simp only [List.isEmpty_eq_true]
    rw [if_neg hne, if_neg hne]
    exact ⟨rfl, rfl⟩


/-! ### Concrete inputs used by the witnesses -/

/-- A collaborator for which every stage invocation succeeds. -/
def wOracle : StageOracle := ⟨fun _ _ => true, fun _ _ _ _ _ => true⟩

/-- A collaborator whose mastering stage always fails. -/
def wOracleFail : StageOracle := ⟨fun _ _ => false, fun _ _ _ _ _ => true⟩

/-- A concrete pending job. -/
def wJob : ProcessingJob :=
  { job_id := "song_0", audio_file := ["song.wav"],
    image_file := ["img.png"], platforms := ["youtube"] }

/-- The resolved platform list of `wJob`. -/
def wPcs : List PlatformConfig := (resolvePlatforms ["youtube"]).toOption.getD []

/-- C1 witness. -/
theorem claim_C1_witness :
    (process_single_job WorkflowConfig.default wOracle [] wJob).1.status =
      JobStatus.completed ∧
    (process_single_job WorkflowConfig.default wOracle [] wJob).2.2.render_calls =
      expectedCalls wJob.image_file
        (mastered_audio_path WorkflowConfig.default wJob)
        (job_videos_dir WorkflowConfig.default wJob) wJob.job_id
        WorkflowConfig.default.video_generation.output_format wPcs := by
  have h := claim_C1 WorkflowConfig.default wOracle [] wJob wPcs
    (Or.inr rfl) rfl (by decide)
  exact ⟨(h.2.2.2.1 (by decide)).1, h.1⟩

/-! ### Claim C2 -/

/-- C2: for every job whose mastering stage runs (not skipped by resume)
and fails, the worker marks the job `failed` with error message exactly
`"Audio mastering failed"`, leaves `output_files` unchanged (hence empty
for a fresh job), performs no render invocation, and creates no file. -/
theorem claim_C2 (cfg : WorkflowConfig) (oracle : StageOracle) (fs : FS)
    (job : ProcessingJob)
    (hneed : mastered_audio_path cfg job ∉ fs ∨ cfg.resume_on_failure = false)
    (hfail : oracle.master_audio_file job.audio_file
      (mastered_audio_path cfg job) = false) :
    (process_single_job cfg oracle fs job).1.status = .failed ∧
    (process_single_job cfg oracle fs job).1.error_message =
      some "Audio mastering failed" ∧
    (process_single_job cfg oracle fs job).1.output_files =
      job.output_files ∧
    (process_single_job cfg oracle fs job).2.2.render_calls = [] ∧
    (process_single_job cfg oracle fs job).2.1 = fs := by
  have hcond : ((!(decide (mastered_audio_path cfg job ∈ fs)) ||
      !cfg.resume_on_failure) &&
      !(oracle.master_audio_file job.audio_file
        (mastered_audio_path cfg job))) = true := by
    rcases hneed with h | h
    · simp [h, hfail]
    · simp [h, hfail]
  unfold process_single_job
  simp only [hcond, if_true]
  simp

/-- C2 witness. -/
theorem claim_C2_witness :
    (process_single_job WorkflowConfig.default wOracleFail [] wJob).1.status =
      JobStatus.failed ∧
    (process_single_job WorkflowConfig.default wOracleFail []
      wJob).1.error_message = some "Audio mastering failed" := by
  have h := claim_C2 WorkflowConfig.default wOracleFail [] wJob
    (Or.inl (by decide)) rfl
  exact ⟨h.1, h.2.1⟩

/-! ### Claim C3 -/

/-- C3: `add_job` fails with `FileNotFoundError` when the audio or image
path does not exist, and with `ValueError` listing the offending
identifiers when a platform is not (case-insensitively) in the catalog;
in every failure case the orchestrator's job list is returned unchanged. -/
theorem claim_C3 (fs : FS) (jobs : List ProcessingJob) (audio image : FPath)
    (platforms : List String) (jobId : Option String) :
    (audio ∉ fs →
      add_job fs jobs audio image platforms jobId =
        (jobs, .error (.fileNotFound
          ("Audio file not found: " ++ pathStr audio)))) ∧
    (audio ∈ fs → image ∉ fs →
      add_job fs jobs audio image platforms jobId =
        (jobs, .error (.fileNotFound
          ("Image file not found: " ++ pathStr image)))) ∧
    (audio ∈ fs → image ∈ fs →
      platforms.filter (fun p => ¬ (strToLower p ∈ list_supported_platforms))
        ≠ [] →
      add_job fs jobs audio image platforms jobId =
        (jobs, .error (.unsupportedPlatforms (platforms.filter
          (fun p => ¬ (strToLower p ∈ list_supported_platforms)))))) := by
  refine ⟨?_, ?_, ?_⟩
  · intro h1
    unfold add_job
    rw [if_pos h1]
  · intro h1 h2
    unfold add_job
    rw [if_neg (not_not_intro h1), if_pos h2]
  · intro h1 h2 h3
    unfold add_job
    rw [if_neg (not_not_intro h1), if_neg (not_not_intro h2), if_pos]
    intro habs
    exact h3 (List.isEmpty_eq_true.mp habs)

/-- C3 witness. -/
theorem claim_C3_witness :
    add_job [["a.wav"], ["i.png"]] [] ["a.wav"] ["i.png"] ["myspace"] none =
      ([], .error (.unsupportedPlatforms (["myspace"].filter
        (fun p => ¬ (strToLower p ∈ list_supported_platforms))))) :=
  (claim_C3 [["a.wav"], ["i.png"]] [] ["a.wav"] ["i.png"] ["myspace"]
    none).2.2 (by decide) (by decide) (by decide)

/-! ### Claim C10 -/

/-- C10: resume mode is on by default — an unmodified `WorkflowConfig` has
`resume_on_failure = true`, and under it a job whose expected
mastered-audio artifact already exists on disk never has the mastering
collaborator invoked. -/
theorem claim_C10 :
    WorkflowConfig.default.resume_on_failure = true ∧
    ∀ (oracle : StageOracle) (fs : FS) (job : ProcessingJob),
      mastered_audio_path WorkflowConfig.default job ∈ fs →
      (process_single_job WorkflowConfig.default oracle fs
        job).2.2.mastering_calls = [] := by
  refine ⟨rfl, ?_⟩
  intro oracle fs job hmem
  have hneed : (!(decide (mastered_audio_path WorkflowConfig.default job
      ∈ fs)) || !WorkflowConfig.default.resume_on_failure) = false := by
    simp [hmem]
    rfl
  unfold process_single_job
  simp only [hneed, Bool.false_and, Bool.false_eq_true, if_false]
  split
  · rfl
  · split <;> rfl

/-- C10 witness. -/
theorem claim_C10_witness :
    (process_single_job WorkflowConfig.default wOracle
      [mastered_audio_path WorkflowConfig.default wJob]
      wJob).2.2.mastering_calls = [] :=
  claim_C10.2 wOracle [mastered_audio_path WorkflowConfig.default wJob] wJob
    (List.mem_singleton_self _)


/-! ### Run-level helper lemmas -/

theorem processPending_dispatched (cfg : WorkflowConfig)
    (oracle : StageOracle) : ∀ (jobs : List ProcessingJob) (fs : FS),
    (processPending cfg oracle jobs fs).2.2.dispatched =
      (jobs.filter (fun j => j.status = .pending)).map ProcessingJob.job_id
  | [], fs => rfl
  | j :: rest, fs => by
    unfold processPending
    by_cases h : j.status = .pending
    · rw [if_pos h]
      have hd : decide (j.status = JobStatus.pending) = true := by
        simpa using h
      simp only [List.filter_cons, hd, if_true, List.map_cons]
      exact congrArg (j.job_id :: ·)
        (processPending_dispatched cfg oracle rest _)
    · rw [if_neg h]
      have hd : decide (j.status = JobStatus.pending) = false := by
        simpa using h
      simp only [List.filter_cons, hd, Bool.false_eq_true, if_false]
      exact processPending_dispatched cfg oracle rest fs

theorem process_all_jobs_hist (cfg : WorkflowConfig) (oracle : StageOracle)
    (jobs : List ProcessingJob) (fs : FS) :
    (process_all_jobs cfg oracle jobs fs).2.2.1 =
      statusCounts (process_all_jobs cfg oracle jobs fs).1 := by
  unfold process_all_jobs
  split
  next h =>
    rw [List.isEmpty_eq_true] at h
    subst h
    rfl
  next =>
    split
    · rfl
    · rcases h : processPending cfg oracle jobs fs with ⟨jobs', fs', tr⟩
      rfl

theorem process_all_jobs_dispatched (cfg : WorkflowConfig)
    (oracle : StageOracle) (jobs : List ProcessingJob) (fs : FS) :
    (process_all_jobs cfg oracle jobs fs).2.2.2.dispatched =
      (jobs.filter (fun j => j.status = .pending)).map ProcessingJob.job_id := by
  unfold process_all_jobs
  split
  next h =>
    rw [List.isEmpty_eq_true] at h
    subst h
    rfl
  next =>
    split
    next h2 =>
      rw [List.isEmpty_eq_true] at h2
      rw [h2]
      rfl
    next =>
      rcases h : processPending cfg oracle jobs fs with ⟨jobs', fs', tr⟩
      have := processPending_dispatched cfg oracle jobs fs
      rw [h] at this
      exact this

theorem process_all_jobs_no_pending (cfg : WorkflowConfig)
    (oracle : StageOracle) (jobs : List ProcessingJob) (fs : FS)
    (h : ∀ j ∈ jobs, j.status ≠ .pending) :
    process_all_jobs cfg oracle jobs fs =
      (jobs, fs, statusCounts jobs, {}) := by
  unfold process_all_jobs
  split
  next he =>
    rw [List.isEmpty_eq_true] at he
    subst he
    rfl
  next =>
    rw [if_pos]
    rw [List.isEmpty_eq_true, List.filter_eq_nil]
    intro j hj
    simpa using h j hj

/-! ### Claim C4 -/

/-- A concrete failed job. -/
def wFailedJob : ProcessingJob :=
  { job_id := "f0", audio_file := ["f.wav"], image_file := ["i.png"],
    platforms := ["youtube"], status := .failed,
    error_message := some "boom" }

/-- C4: `retry_failed_jobs` resets every failed job to pending with its
error message cleared, leaves every non-failed job untouched, then invokes
`process_all_jobs`, which dispatches exactly the jobs that are pending at
that point (in order). -/
theorem claim_C4 (cfg : WorkflowConfig) (oracle : StageOracle)
    (jobs : List ProcessingJob) (fs : FS) :
    retry_failed_jobs cfg oracle jobs fs =
      process_all_jobs cfg oracle (jobs.map resetFailedJob) fs ∧
    (∀ j : ProcessingJob, j.status = .failed →
      resetFailedJob j =
        { j with status := .pending, error_message := none }) ∧
    (∀ j : ProcessingJob, j.status ≠ .failed → resetFailedJob j = j) ∧
    (retry_failed_jobs cfg oracle jobs fs).2.2.2.dispatched =
      ((jobs.map resetFailedJob).filter
        (fun j => j.status = .pending)).map ProcessingJob.job_id := by
  refine ⟨rfl, ?_, ?_, ?_⟩
  · intro j hj
    unfold resetFailedJob
    rw [if_pos hj]
  · intro j hj
    unfold resetFailedJob
    rw [if_neg hj]
  · exact process_all_jobs_dispatched cfg oracle (jobs.map resetFailedJob) fs

/-- C4 witness. -/
theorem claim_C4_witness :
    resetFailedJob wFailedJob =
      { wFailedJob with status := .pending, error_message := none } :=
  (claim_C4 WorkflowConfig.default wOracle [wFailedJob] []).2.1 wFailedJob rfl

/-! ### Claim C5 -/

/-- C5: `process_all_jobs` is idempotent after a fully successful run —
if every job is `completed` after a run, a second run returns the same
job list, same filesystem and same histogram, and performs no work at all
(no dispatch, no mastering call, no render call). -/
theorem claim_C5 (cfg : WorkflowConfig) (oracle : StageOracle)
    (jobs : List ProcessingJob) (fs : FS)
    (hcomp : ∀ j ∈ (process_all_jobs cfg oracle jobs fs).1,
      j.status = .completed) :
    process_all_jobs cfg oracle (process_all_jobs cfg oracle jobs fs).1
        (process_all_jobs cfg oracle jobs fs).2.1 =
      ((process_all_jobs cfg oracle jobs fs).1,
       (process_all_jobs cfg oracle jobs fs).2.1,
       (process_all_jobs cfg oracle jobs fs).2.2.1, ({} : RunTrace)) := by
  have hnp : ∀ j ∈ (process_all_jobs cfg oracle jobs fs).1,
      j.status ≠ .pending := by
    intro j hj
    rw [hcomp j hj]
    decide
  rw [process_all_jobs_no_pending cfg oracle _ _ hnp,
    ← process_all_jobs_hist]

/-- C5 witness. -/
theorem claim_C5_witness :
    process_all_jobs WorkflowConfig.default wOracle
        (process_all_jobs WorkflowConfig.default wOracle [wJob] []).1
        (process_all_jobs WorkflowConfig.default wOracle [wJob] []).2.1 =
      ((process_all_jobs WorkflowConfig.default wOracle [wJob] []).1,
       (process_all_jobs WorkflowConfig.default wOracle [wJob] []).2.1,
       (process_all_jobs WorkflowConfig.default wOracle [wJob] []).2.2.1,
       ({} : RunTrace)) :=
  claim_C5 WorkflowConfig.default wOracle [wJob] [] (by decide)

/-! ### Claim C7 -/

/-- C7: the report document has exactly the top-level keys
`workflow_config` (the configuration echo), `jobs` (one full record per
job, in insertion order, including `output_files` and `error_message`) and
`summary`, whose `total_jobs`/`completed`/`failed`/`pending` counts agree
exactly with the in-memory status counts. -/
theorem claim_C7 (cfg : WorkflowConfig) (jobs : List ProcessingJob) :
    (export_job_report cfg jobs).getKey? "workflow_config" =
      some (.obj [("max_concurrent_jobs", .num cfg.max_concurrent_jobs),
        ("output_base_dir", .str cfg.output_base_dir),
        ("audio_mastering", cfg.audio_mastering.toJson),
        ("video_generation", cfg.video_generation.toJson)]) ∧
    (export_job_report cfg jobs).getKey? "jobs" =
      some (.arr (jobs.map jobRecord)) ∧
    ((export_job_report cfg jobs).getKey? "summary").bind
      (fun s => s.getKey? "total_jobs") = some (.num jobs.length) ∧
    ((export_job_report cfg jobs).getKey? "summary").bind
      (fun s => s.getKey? "completed") =
      some (.num (statusCounts jobs).completed) ∧
    ((export_job_report cfg jobs).getKey? "summary").bind
      (fun s => s.getKey? "failed") =
      some (.num (statusCounts jobs).failed) ∧
    ((export_job_report cfg jobs).getKey? "summary").bind
      (fun s => s.getKey? "pending") =
      some (.num (statusCounts jobs).pending) ∧
    (∀ j : ProcessingJob,
      (jobRecord j).getKey? "output_files" =
        some (.obj (j.output_files.map fun kv => (kv.1, optStr kv.2))) ∧
      (jobRecord j).getKey? "error_message" =
        some (optStr j.error_message)) :=
  ⟨rfl, rfl, rfl, rfl, rfl, rfl, fun _ => ⟨rfl, rfl⟩⟩

/-! ### Claim C6 -/

/-- A filesystem holding two audio files with the same stem in different
directories, plus the shared image. -/
def cexFS : FS := [["a", "song.wav"], ["b", "song.wav"], ["img.png"]]

/-- The job `add_job` creates for `a/song.wav` (auto id `song_0`). -/
def cexJob1 : ProcessingJob :=
  { job_id := "song_0", audio_file := ["a", "song.wav"],
    image_file := ["img.png"], platforms := ["youtube"] }

/-- The job `add_job` creates for `b/song.wav` (auto id `song_1`). -/
def cexJob2 : ProcessingJob :=
  { job_id := "song_1", audio_file := ["b", "song.wav"],
    image_file := ["img.png"], platforms := ["tiktok"] }

/-- C6 counterexample: two distinct jobs created by consecutive `add_job`
calls on the same orchestrator (distinct audio files, distinct job ids)
are assigned the SAME mastered-audio artifact path, because that path is
derived from the audio file's stem, not from the job. -/
theorem claim_C6_counterexample :
    add_job cexFS [] ["a", "song.wav"] ["img.png"] ["youtube"] none =
      ([cexJob1], .ok cexJob1) ∧
    add_job cexFS [cexJob1] ["b", "song.wav"] ["img.png"] ["tiktok"] none =
      ([cexJob1, cexJob2], .ok cexJob2) ∧
    cexJob1 ≠ cexJob2 ∧
    mastered_audio_path WorkflowConfig.default cexJob1 =
      mastered_audio_path WorkflowConfig.default cexJob2 :=
  ⟨rfl, rfl, by decide, rfl⟩

/-- C6 amended: per-job video output directories are distinct whenever the
job ids are distinct, and a mastered-audio artifact path never coincides
with a video output directory; mastered-audio artifact paths, however, are
distinct only when the audio files' stems are distinct. -/
theorem claim_C6 (cfg : WorkflowConfig) (j1 j2 : ProcessingJob) :
    (j1.job_id ≠ j2.job_id →
      job_videos_dir cfg j1 ≠ job_videos_dir cfg j2) ∧
    (j1.audio_file.stem ≠ j2.audio_file.stem →
      mastered_audio_path cfg j1 ≠ mastered_audio_path cfg j2) ∧
    mastered_audio_path cfg j1 ≠ job_videos_dir cfg j2 := by
  refine ⟨?_, ?_, ?_⟩
  · intro h he
    simp only [job_videos_dir, videos_dir, output_dir, List.cons_append,
      List.nil_append, List.cons.injEq, List.append_cancel_left_eq] at he
    exact h he.2.2.1
  · intro h he
    simp only [mastered_audio_path, mastered_audio_dir, output_dir,
      List.cons_append, List.nil_append, List.cons.injEq] at he
    apply h
    have hd := congrArg String.data he.2.2.1
    simp only [String.data_append] at hd
    have := List.append_cancel_right hd
    exact String.ext this
  · intro he
    simp only [mastered_audio_path, mastered_audio_dir, job_videos_dir,
      videos_dir, output_dir, List.cons_append, List.nil_append,
      List.cons.injEq] at he
    exact absurd he.2.1 (by decide)

/-- C6 witness (for the amended claim). -/
theorem claim_C6_witness :
    job_videos_dir WorkflowConfig.default cexJob1 ≠
      job_videos_dir WorkflowConfig.default cexJob2 :=
  (claim_C6 WorkflowConfig.default cexJob1 cexJob2).1 (by decide)

/-! ### Claim C8 -/

/-- The worker's pipeline preserves the error-message/status agreement:
a job entering with no error message leaves with an error message exactly
when it leaves `failed`. -/
theorem process_single_job_errinv (cfg : WorkflowConfig)
    (oracle : StageOracle) (fs : FS) (job : ProcessingJob)
    (h : job.error_message = none) :
    ((process_single_job cfg oracle fs job).1.error_message ≠ none ↔
      (process_single_job cfg oracle fs job).1.status = .failed) := by
  unfold process_single_job
  dsimp only
  split
  · simp
  · split
    next e he => simp
    next pcs hps => split <;> simp [h]

theorem processPending_errinv (cfg : WorkflowConfig) (oracle : StageOracle) :
    ∀ (jobs : List ProcessingJob) (fs : FS),
    (∀ j ∈ jobs, (j.error_message ≠ none ↔ j.status = .failed)) →
    ∀ j' ∈ (processPending cfg oracle jobs fs).1,
      (j'.error_message ≠ none ↔ j'.status = .failed)
  | [], _, _, j', hj' => absurd hj' (List.not_mem_nil _)
  | j :: rest, fs, hinv, j', hj' => by
    unfold processPending at hj'
    by_cases h : j.status = .pending
    · rw [if_pos h] at hj'
      rcases List.mem_cons.mp hj' with h1 | h2
      · subst h1
        have hnone : j.error_message = none := by
          by_contra hne
          have hfail := (hinv j (List.mem_cons_self _ _)).mp hne
          rw [h] at hfail
          exact JobStatus.noConfusion hfail
        exact process_single_job_errinv cfg oracle fs j hnone
      · exact processPending_errinv cfg oracle rest _
          (fun j hj => hinv j (List.mem_cons_of_mem _ hj)) j' h2
    · rw [if_neg h] at hj'
      rcases List.mem_cons.mp hj' with h1 | h2
      · subst h1
        exact hinv j' (List.mem_cons_self _ _)
      · exact processPending_errinv cfg oracle rest fs
          (fun j hj => hinv j (List.mem_cons_of_mem _ hj)) j' h2

theorem process_all_jobs_errinv (cfg : WorkflowConfig)
    (oracle : StageOracle) (jobs : List ProcessingJob) (fs : FS)
    (hinv : ∀ j ∈ jobs, (j.error_message ≠ none ↔ j.status = .failed)) :
    ∀ j' ∈ (process_all_jobs cfg oracle jobs fs).1,
      (j'.error_message ≠ none ↔ j'.status = .failed) := by
  unfold process_all_jobs
  split
  · exact hinv
  · split
    · exact hinv
    · exact processPending_errinv cfg oracle jobs fs hinv

theorem add_job_errinv (fs : FS) (jobs : List ProcessingJob)
    (audio image : FPath) (platforms : List String) (jobId : Option String)
    (hinv : ∀ j ∈ jobs, (j.error_message ≠ none ↔ j.status = .failed)) :
    ∀ j' ∈ (add_job fs jobs audio image platforms jobId).1,
      (j'.error_message ≠ none ↔ j'.status = .failed) := by
  unfold add_job
  split
  · exact hinv
  · split
    · exact hinv
    · dsimp only
      split
      · exact hinv
      · intro j' hj'
        rcases List.mem_append.mp hj' with h | h
        · exact hinv j' h
        · rw [List.mem_singleton.mp h]
          simp

theorem resetFailed_errinv (jobs : List ProcessingJob)
    (hinv : ∀ j ∈ jobs, (j.error_message ≠ none ↔ j.status = .failed)) :
    ∀ j' ∈ jobs.map resetFailedJob,
      (j'.error_message ≠ none ↔ j'.status = .failed) := by
  intro j' hj'
  obtain ⟨j, hj, rfl⟩ := List.mem_map.mp hj'
  unfold resetFailedJob
  split
  · simp
  · exact hinv j hj

/-- C8: in every orchestrator state reachable through the operations
(fresh orchestrator, `add_job`, `process_all_jobs`, `retry_failed_jobs`,
`clear_jobs`, with arbitrary filesystems and collaborator behavior),
every job's `error_message` is non-null exactly when its status is
`failed`. -/
theorem claim_C8 (cfg : WorkflowConfig) (jobs : List ProcessingJob)
    (h : Reach cfg jobs) :
    ∀ j ∈ jobs, (j.error_message ≠ none ↔ j.status = .failed) := by
  induction h with
  | init => intro j hj; exact absurd hj (List.not_mem_nil _)
  | add fs audio image platforms jobId jobs h ih =>
    exact add_job_errinv fs jobs audio image platforms jobId ih
  | processAll oracle fs jobs h ih =>
    exact process_all_jobs_errinv cfg oracle jobs fs ih
  | retry oracle fs jobs h ih =>
    exact process_all_jobs_errinv cfg oracle (jobs.map resetFailedJob) fs
      (resetFailed_errinv jobs ih)
  | clear jobs h ih => intro j hj; exact absurd hj (List.not_mem_nil _)

/-- C8 witness. -/
theorem claim_C8_witness :
    wJob.error_message ≠ none ↔ wJob.status = JobStatus.failed := by
  have h0 := @Reach.add WorkflowConfig.default
    [["song.wav"], ["img.png"]] ["song.wav"] ["img.png"] ["youtube"] none []
    Reach.init
  have he : (add_job [["song.wav"], ["img.png"]] [] ["song.wav"] ["img.png"]
      ["youtube"] none).1 = [wJob] := by decide
  rw [he] at h0
  exact claim_C8 WorkflowConfig.default [wJob] h0 wJob
    (List.mem_singleton_self _)

/-! ### Claim C9 -/

theorem processingCount_cons (a : JobStatus) (l : List JobStatus) :
    processingCount (a :: l) =
      (if a = .processing then 1 else 0) + processingCount l := by
  by_cases h : a = .processing
  · simp [processingCount, List.filter_cons, h, Nat.add_comm]
  · simp [processingCount, List.filter_cons, h]

theorem processingCount_set_start : ∀ (l : List JobStatus) (i : Nat)
    (h : i < l.length), l.get ⟨i, h⟩ ≠ .processing →
    processingCount (l.set i .processing) = processingCount l + 1
  | a :: tl, 0, _, hp => by
    simp only [List.set_cons_zero]
    rw [processingCount_cons, processingCount_cons]
    have ha : a ≠ JobStatus.processing := by simpa using hp
    simp [ha, Nat.add_comm]
  | a :: tl, i + 1, h, hp => by
    simp only [List.set_cons_succ]
    rw [processingCount_cons, processingCount_cons,
      processingCount_set_start tl i (by simpa using h) (by simpa using hp)]
    omega

theorem processingCount_set_finish : ∀ (l : List JobStatus) (st : JobStatus)
    (hst : st ≠ .processing) (i : Nat) (h : i < l.length),
    l.get ⟨i, h⟩ = .processing →
    processingCount (l.set i st) + 1 = processingCount l
  | a :: tl, st, hst, 0, _, hp => by
    simp only [List.set_cons_zero]
    rw [processingCount_cons, processingCount_cons]
    have ha : a = JobStatus.processing := by simpa using hp
    simp [hst, ha, Nat.add_comm]
  | a :: tl, st, hst, i + 1, h, hp => by
    simp only [List.set_cons_succ]
    rw [processingCount_cons, processingCount_cons]
    have := processingCount_set_finish tl st hst i (by simpa using h)
      (by simpa using hp)
    omega

theorem no_processing_of_count_zero (l : List JobStatus)
    (h : processingCount l = 0) (i : Nat) (hi : i < l.length) :
    l.get ⟨i, hi⟩ ≠ .processing := by
  intro hp
  have hnil : l.filter (fun st => st = .processing) = [] :=
    List.length_eq_zero.mp h
  have hmem : l.get ⟨i, hi⟩ ∈ l.filter (fun st => st = .processing) :=
    List.mem_filter.mpr ⟨List.get_mem l i hi, by
      simp only [List.get_eq_getElem] at hp
      simp [hp]⟩
  rw [hnil] at hmem
  exact List.not_mem_nil _ hmem

/-- The inductive invariant of the pool run: the running set is
duplicate-free, holds exactly the indices of the `processing` jobs, and
never exceeds the worker bound. -/
def PoolInv (cfg : WorkflowConfig) (s : PoolState) : Prop :=
  s.running.Nodup ∧
  (∀ i ∈ s.running, ∃ h : i < s.statuses.length,
    s.statuses.get ⟨i, h⟩ = .processing) ∧
  (∀ (i : Nat) (h : i < s.statuses.length),
    s.statuses.get ⟨i, h⟩ = .processing → i ∈ s.running) ∧
  processingCount s.statuses ≤ s.running.length ∧
  s.running.length ≤ cfg.max_concurrent_jobs

theorem PoolInv_step (cfg : WorkflowConfig) (s s' : PoolState)
    (hinv : PoolInv cfg s) (hstep : PoolStep cfg s s') : PoolInv cfg s' := by
  obtain ⟨hnd, hrp, hpr, hcount, hcap⟩ := hinv
  cases hstep with
  | start i hi hp hcapN =>
    have hnotin : i ∉ s.running := by
      intro hmem
      obtain ⟨h', hp'⟩ := hrp i hmem
      have he : s.statuses.get ⟨i, h'⟩ = s.statuses.get ⟨i, hi⟩ := rfl
      rw [he, hp] at hp'
      exact JobStatus.noConfusion hp'
    refine ⟨List.nodup_cons.mpr ⟨hnotin, hnd⟩, ?_, ?_, ?_, ?_⟩
    · intro j hj
      rcases List.mem_cons.mp hj with rfl | hjr
      · refine ⟨by simpa using hi, ?_⟩
        simp [List.get_eq_getElem]
      · obtain ⟨h', hp'⟩ := hrp j hjr
        have hne : i ≠ j := fun he => hnotin (he ▸ hjr)
        refine ⟨by simpa using h', ?_⟩
        simp only [List.get_eq_getElem] at hp' ⊢
        rw [List.getElem_set_ne hne]
        exact hp'
    · intro j hb hproc
      by_cases hji : j = i
      · subst hji
        exact List.mem_cons_self _ _
      · have hb' : j < s.statuses.length := by simpa using hb
        have hproc' : s.statuses.get ⟨j, hb'⟩ = .processing := by
          simp only [List.get_eq_getElem] at hproc ⊢
          rw [List.getElem_set_ne (fun he => hji he.symm)] at hproc
          exact hproc
        exact List.mem_cons_of_mem _ (hpr j hb' hproc')
    · have hstart := processingCount_set_start s.statuses i hi
        (by rw [hp]; decide)
      rw [hstart]
      simpa using Nat.add_le_add_right hcount 1
    · simpa using hcapN
  | finish i st hmem hterm =>
    obtain ⟨hi, hpi⟩ := hrp i hmem
    have hstne : st ≠ .processing := by
      rcases hterm with rfl | rfl <;> decide
    refine ⟨hnd.erase i, ?_, ?_, ?_, ?_⟩
    · intro j hj
      have hj' : j ∈ s.running := List.mem_of_mem_erase hj
      have hne : j ≠ i := ((List.Nodup.mem_erase_iff hnd).mp hj).1
      obtain ⟨h', hp'⟩ := hrp j hj'
      refine ⟨by simpa using h', ?_⟩
      simp only [List.get_eq_getElem] at hp' ⊢
      rw [List.getElem_set_ne (fun he => hne he.symm)]
      exact hp'
    · intro j hb hproc
      by_cases hji : j = i
      · subst hji
        simp only [List.get_eq_getElem, List.getElem_set_self] at hproc
        exact absurd hproc hstne
      · have hb' : j < s.statuses.length := by simpa using hb
        have hproc' : s.statuses.get ⟨j, hb'⟩ = .processing := by
          simp only [List.get_eq_getElem] at hproc ⊢
          rw [List.getElem_set_ne (fun he => hji he.symm)] at hproc
          exact hproc
        exact (List.Nodup.mem_erase_iff hnd).mpr ⟨hji, hpr j hb' hproc'⟩
    · show processingCount (s.statuses.set i st) ≤ (s.running.erase i).length
      have hfin := processingCount_set_finish s.statuses st hstne i hi hpi
      have hlen : (s.running.erase i).length = s.running.length - 1 :=
        List.length_erase_of_mem hmem
      have hpos : 0 < s.running.length := List.length_pos_of_mem hmem
      omega
    · show (s.running.erase i).length ≤ cfg.max_concurrent_jobs
      have := List.length_erase_le i s.running
      omega

/-- C9: during a `process_all_jobs` run modelled as the interleaved pool
step relation, at no reachable instant are more than
`cfg.max_concurrent_jobs` jobs simultaneously in the `processing` state. -/
theorem claim_C9 (cfg : WorkflowConfig) (s0 s : PoolState)
    (hcount : processingCount s0.statuses = 0) (hrun : s0.running = [])
    (hreach : Relation.ReflTransGen (PoolStep cfg) s0 s) :
    processingCount s.statuses ≤ cfg.max_concurrent_jobs := by
  have hinv : PoolInv cfg s := by
    induction hreach with
    | refl =>
      refine ⟨by rw [hrun]; exact List.nodup_nil, ?_, ?_, ?_, ?_⟩
      · intro i hi
        rw [hrun] at hi
        exact absurd hi (List.not_mem_nil _)
      · intro i h hp
        exact absurd hp (no_processing_of_count_zero s0.statuses hcount i h)
      · rw [hcount]
        exact Nat.zero_le _
      · rw [hrun]
        exact Nat.zero_le _
    | tail hsub hstep ih => exact PoolInv_step cfg _ _ ih hstep
  exact le_trans hinv.2.2.2.1 hinv.2.2.2.2

/-- C9 witness. -/
theorem claim_C9_witness :
    processingCount [JobStatus.pending] ≤
      WorkflowConfig.default.max_concurrent_jobs :=
  claim_C9 WorkflowConfig.default ⟨[JobStatus.pending], []⟩
    ⟨[JobStatus.pending], []⟩ (by decide) rfl Relation.ReflTransGen.refl

end ABG
